import Mathlib

/-!
# Verification of `metadataStore.dataapi.raw_commands`

A shallow embedding of the metadata-store data API (`raw_commands.py`)
over an explicit document-store state, together with theorems settling
the frozen claims about the query engine (`find`), the record writers
(`save_header`, `insert_event`, `save_beamline_config`), the
read-modify-write header updates, and the query-dict helpers.

Modelling conventions:
- python `datetime` values are `Nat` timestamps; loosely-typed Python
  values appearing in query criteria are the inductive `PyVal`;
- raised Python exceptions are the inductive `PyError`, and fallible
  operations return `Except PyError _`, threading the resulting store
  state explicitly;
- the mongo collections are Lean lists in insertion order; the store's
  id generator is an explicit `next_id : Nat` counter;
- the store's case-insensitive regular-expression engine (an external
  collaborator of this module) is a parameter
  `rm : String → String → Bool` taking the pattern and the field value;
- Python dictionaries keyed by strings are association lists with
  insert-or-overwrite update (`dinsert`).
-/

set_option autoImplicit false

namespace MetadataStore

/-- A loosely-typed Python value as it may appear in a `find` criterion:
an integer, a string, a `datetime` (modelled as a `Nat` timestamp),
a list, or a string-keyed dict. -/
inductive PyVal where
  | int (n : Int)
  | str (s : String)
  | dt (t : Nat)
  | list (xs : List PyVal)
  | dict (kvs : List (String × PyVal))

/-- `isinstance(v, datetime.datetime)`. -/
def PyVal.isDatetime : PyVal → Bool
  | .dt _ => true
  | _ => false

/-- Mongo equality of a query value against a stored datetime field:
only a datetime value can equal a datetime field. -/
def PyVal.eqDt : PyVal → Nat → Bool
  | .dt u, t => u == t
  | _, _ => false

/-- Mongo equality of a query value against a stored integer field. -/
def PyVal.eqInt : PyVal → Int → Bool
  | .int n, m => n == m
  | _, _ => false

/-- Mongo equality of a query value against a stored (Nat-valued) id field. -/
def PyVal.eqNat : PyVal → Nat → Bool
  | .int n, m => n == (m : Int)
  | _, _ => false

/-- Mongo `$gte`-style comparison `a <= b` on query values: defined on
datetime pairs, false across mismatched types (a mismatched-type range
criterion matches no document). -/
def PyVal.dtLE : PyVal → PyVal → Bool
  | .dt a, .dt b => a ≤ b
  | _, _ => false

/-- Mongo `$lt`-style comparison `a < b` on query values; see `PyVal.dtLE`. -/
def PyVal.dtLT : PyVal → PyVal → Bool
  | .dt a, .dt b => a < b
  | _, _ => false

/-- A raised Python exception, as distinguished by the claims:
`TypeError`, `KeyError`, `IndexError`, `NameError`, `ValueError`,
and the bare `Exception` raised by `get_header_id`. -/
inductive PyError where
  | typeError (msg : String)
  | keyError (k : String)
  | indexError
  | nameError
  | valueError (msg : String)
  | exception (msg : String)
deriving Repr, DecidableEq

/-- A Header document. Modelled from the spec: the schema class lives in
`metadataStore.database.databaseTables` (not under `src/`); the fields are
exactly those constructed in `raw_commands.save_header` and listed in the
spec's data model (internal id, owner, scan id, start/end time,
beamline id, status, custom mapping). -/
structure Header where
  _id : Nat
  owner : String
  start_time : Nat
  end_time : Nat
  beamline_id : Option String
  scan_id : Int
  custom : List (String × String)
  status : String
deriving Repr, DecidableEq

/-- An EventDescriptor document. Modelled from the spec: schema class not
under `src/`; fields as constructed in `raw_commands.insert_event_descriptor`. -/
structure EventDescriptor where
  _id : Nat
  header_id : Nat
  event_type_id : Int
  event_type_name : Option String
  type_descriptor : List (String × String)
  tag : Option String
deriving Repr, DecidableEq

/-- An Event document. Modelled from the spec: schema class not under
`src/`; fields as constructed in `raw_commands.insert_event`. -/
structure Event where
  _id : Nat
  event_descriptor_id : Nat
  header_id : Nat
  description : Option String
  owner : String
  seq_no : Option Int
  data : List (String × String)
deriving Repr, DecidableEq

/-- A BeamlineConfig document. Modelled from the spec: schema class not
under `src/`; fields as constructed in `raw_commands.save_beamline_config`
(the `_id` is caller-supplied). -/
structure BeamlineConfig where
  _id : Nat
  header_id : Nat
  config_params : List (String × String)
deriving Repr, DecidableEq

/-- The document store's state: the four collections in insertion order,
plus the store's id generator for store-assigned ids. -/
structure Store where
  headers : List Header
  descriptors : List EventDescriptor
  events : List Event
  configs : List BeamlineConfig
  next_id : Nat
deriving Repr, DecidableEq

/-- Values captured once when the module is loaded: the Python default
arguments `getpass.getuser()` and `datetime.datetime.utcnow()` of
`save_header` / `insert_event` are evaluated at definition time, so they
are constants of the loaded module, not of the call. -/
structure ModuleEnv where
  load_user : String
  load_time : Nat
deriving Repr, DecidableEq

/-- Insert-or-overwrite on a string-keyed association list, matching
Python dict assignment `d[k] = v`: an existing key keeps its position and
gets the new value; a new key is appended. -/
def dinsert {α : Type} (m : List (String × α)) (k : String) (v : α) :
    List (String × α) :=
  if m.any (fun p => p.1 == k) then
    m.map (fun p => if p.1 == k then (k, v) else p)
  else
    m ++ [(k, v)]

/-- A Python dict used as a raw mongo query document. -/
structure QDict where
  entries : List (String × PyVal)

/-- Python `d[k] = v` on a query dict. -/
def QDict.setItem (d : QDict) (k : String) (v : PyVal) : QDict :=
  ⟨dinsert d.entries k v⟩

/-- Python `k in d` on a query dict. -/
def QDict.hasKey (d : QDict) (k : String) : Bool :=
  d.entries.any (fun p => p.1 == k)

/-- The module-level default query dicts of `find_event`,
`find_event_descriptor` and `find_beamline_config`: each function's
mutable default argument `{}` is a single dict created when the module is
loaded and shared by every call that omits the argument. -/
structure ModuleDefaults where
  event_query_dict : QDict
  descriptor_query_dict : QDict
  beamline_cfg_query_dict : QDict

/-- The owner criterion assembled by `find`: either an exact-match value
`query_dict['owner'] = owner`, or a case-insensitive regular expression
`{'$regex': re.compile(owner, re.IGNORECASE)}`. -/
inductive OwnerCrit where
  | exact (s : String)
  | regexIC (pat : String)
deriving Repr, DecidableEq

/-- A time criterion assembled by `find` for `start_time` / `end_time`:
either `{'$in': [...]}` or `{'$gte': a, '$lt': b}`. -/
inductive TimeCrit where
  | inL (vs : List PyVal)
  | range (gte lt : PyVal)

/-- The `query_dict` that `find` assembles in general-filter mode, one
optional criterion per header field. -/
structure Query where
  _id : Option Nat := none
  owner : Option OwnerCrit := none
  scan_id : Option PyVal := none
  beamline_id : Option String := none
  start_time : Option TimeCrit := none
  end_time : Option TimeCrit := none

/-- `supported_wildcard = ['*', '.', '?', '/', '^']` from `find`. -/
def supported_wildcard : List Char := ['*', '.', '?', '/', '^']

/-- The `for entry in supported_wildcard` loop of `find`: on the first
wildcard character contained in `owner`, set the regex criterion and
break; otherwise (re)set the exact criterion and continue. `acc` is the
current `query_dict['owner']` entry (unset before the loop). -/
def ownerLoop (owner : String) : List Char → Option OwnerCrit → Option OwnerCrit
  | [], acc => acc
  | c :: cs, acc =>
    if owner.data.contains c then some (.regexIC owner)
    else ownerLoop owner cs (some (.exact owner))

/-- Whether `owner` contains one of the supported wildcard characters
(the test Python's `entry in owner` performs for one-character
`entry`, stated on the string's character list). -/
def hasWildcard (owner : String) : Bool :=
  supported_wildcard.any (fun c => owner.data.contains c)

/-- The store's evaluation of an owner criterion against a stored owner
field; `rm pat s` is the external regex engine (pattern compiled with
`re.IGNORECASE`). -/
def matchOwner (rm : String → String → Bool) : OwnerCrit → String → Bool
  | .exact w, o => o == w
  | .regexIC p, o => rm p o

/-- The store's evaluation of a time criterion against a stored
datetime field. -/
def matchTime : TimeCrit → Nat → Bool
  | .inL vs, v => vs.any (fun x => x.eqDt v)
  | .range a b, v => a.dtLE (.dt v) && (PyVal.dt v).dtLT b

/-- The store's evaluation of the assembled `query_dict` against a
header document: the conjunction of all present criteria. -/
def matchQuery (rm : String → String → Bool) (q : Query) (h : Header) : Bool :=
  (match q._id with | some i => h._id == i | none => true) &&
  (match q.owner with | some c => matchOwner rm c h.owner | none => true) &&
  (match q.scan_id with | some v => v.eqInt h.scan_id | none => true) &&
  (match q.beamline_id with | some b => h.beamline_id == some b | none => true) &&
  (match q.start_time with | some tc => matchTime tc h.start_time | none => true) &&
  (match q.end_time with | some tc => matchTime tc h.end_time | none => true)

/-- `__validate_time(time_entry_list)`: raise `TypeError` on the first
entry that is not a `datetime`; return the flag (set on each valid
entry) — on an empty list the flag is unbound, a `NameError`. -/
def __validate_time : List PyVal → Except PyError Bool
  | [] => .error .nameError
  | l =>
    if l.all PyVal.isDatetime then .ok true
    else .error (.typeError "Date must be datetime object")

/-- The `for time_entry in ...: __validate_time([time_entry])` loop of
`find` over a list-shaped time criterion. -/
def validateEach : List PyVal → Except PyError Unit
  | [] => .ok ()
  | t :: ts => do
    let _ ← __validate_time [t]
    validateEach ts

/-- Python `d[k]` on a dict-shaped criterion: the value, or `KeyError`. -/
def getItem (kvs : List (String × PyVal)) (k : String) : Except PyError PyVal :=
  match kvs.find? (fun p => p.1 == k) with
  | some p => .ok p.2
  | none => .error (.keyError k)

/-- The sort key relation of `coll.find().sort([('end_time', -1)])`:
`a` before `b` iff `a.end_time >= b.end_time` (descending). -/
def endDesc (a b : Header) : Prop := b.end_time ≤ a.end_time

instance : DecidableRel endDesc := fun a b => Nat.decLe b.end_time a.end_time

instance : IsTotal Header endDesc :=
  ⟨fun a b => Nat.le_total b.end_time a.end_time⟩

instance : IsTrans Header endDesc :=
  ⟨fun _ _ _ hab hbc => Nat.le_trans hbc hab⟩

/-- The store's `.sort([('end_time', -1)])` on the Header collection,
realised as an insertion sort under `endDesc`. -/
def sortEndDesc (l : List Header) : List Header :=
  List.insertionSort endDesc l

/-- `__decode_cursor(cursor_object)`: key the records of a cursor
`event_0`, `event_1`, … in cursor order. -/
def __decode_cursor (l : List Event) : List (String × Event) :=
  l.enum.map (fun p => ("event_" ++ toString p.1, p.2))

/-- The key `'header_' + str(temp_dict['_id'])` under which
`__decode_hdr_cursor` files a header. -/
def hdrKey (h : Header) : String := "header_" ++ toString h._id

/-- `__decode_hdr_cursor(cursor_object)`: a Python dict keyed
`'header_' + str(_id)`; a duplicate key overwrites (mongo `_id`s are
unique, so in practice no key collides). -/
def __decode_hdr_cursor (l : List Header) : List (String × Header) :=
  l.foldl (fun m h => dinsert m (hdrKey h) h) []

/-- A descriptor as attached by `find`: the raw descriptor record plus,
when `data` is true, its `'events'` key (keyed `event_0, event_1, …`). -/
structure AnnotDesc where
  desc : EventDescriptor
  events : Option (List (String × Event))
deriving Repr, DecidableEq

/-- A header as returned by `find`: the raw header record extended with
keys `event_descriptor_0, event_descriptor_1, …` (held positionally with
their key strings). -/
structure AnnotHeader where
  base : Header
  descs : List (String × AnnotDesc)
deriving Repr, DecidableEq

/-- The descriptor/event attachment loop of `find`, shared by all three
modes: for the `i`-th descriptor of the header (in store order, i.e. the
result of `find_event_descriptor(header['_id'])` whose module-default
query dict holds exactly the `header_id` key at every use inside `find`),
set `header['event_descriptor_' + str(i)]`, with its events
(`__decode_cursor(find_event(event_descriptor_id=e_d['_id']))`) attached
under `'events'` when `data` is true. -/
def attachDescs (st : Store) (h : Header) (data : Bool) : AnnotHeader :=
  let ds := st.descriptors.filter (fun d => d.header_id == h._id)
  { base := h
    descs := ds.enum.map (fun p =>
      ("event_descriptor_" ++ toString p.1,
       { desc := p.2
         events :=
           if data then
             some (__decode_cursor
               (st.events.filter (fun e => e.event_descriptor_id == p.2._id)))
           else none })) }

/-- The result of `find`: a single annotated header record in the
`'current'`/`'last'` sentinel modes, a dict keyed `'header_<id>'` in the
general-filter mode. -/
inductive FindResult where
  | single (h : AnnotHeader)
  | table (m : List (String × AnnotHeader))
deriving Repr, DecidableEq

/-- Mongo equality of a raw query-dict entry against an Event document.
Only the id fields ever placed in these dicts by this module are
modelled; an unknown key matches no document. -/
def matchEventEntry (e : Event) : String × PyVal → Bool
  | ("_id", v) => v.eqNat e._id
  | ("event_descriptor_id", v) => v.eqNat e.event_descriptor_id
  | ("header_id", v) => v.eqNat e.header_id
  | _ => false

/-- Mongo equality of a raw query-dict entry against an EventDescriptor
document; see `matchEventEntry`. -/
def matchDescEntry (d : EventDescriptor) : String × PyVal → Bool
  | ("_id", v) => v.eqNat d._id
  | ("header_id", v) => v.eqNat d.header_id
  | _ => false

/-- Mongo equality of a raw query-dict entry against a BeamlineConfig
document; see `matchEventEntry`. -/
def matchCfgEntry (c : BeamlineConfig) : String × PyVal → Bool
  | ("_id", v) => v.eqNat c._id
  | ("header_id", v) => v.eqNat c.header_id
  | _ => false

/-- `find_header(query_dict)`: run the assembled query against the
Header collection. -/
def find_header (rm : String → String → Bool) (st : Store) (q : Query) :
    List Header :=
  st.headers.filter (matchQuery rm q)

/-- `find_event(event_descriptor_id, event_query_dict={})`: set
`event_query_dict['event_descriptor_id']` — mutating the caller's dict,
or the single module-level default dict when the argument is omitted —
then query the Event collection with it. Returns the cursor, the query
dict as it stands after the call, and the updated module defaults. -/
def find_event (st : Store) (md : ModuleDefaults) (event_descriptor_id : PyVal)
    (event_query_dict : Option QDict := none) :
    List Event × QDict × ModuleDefaults :=
  match event_query_dict with
  | some d =>
    let d := d.setItem "event_descriptor_id" event_descriptor_id
    (st.events.filter (fun e => d.entries.all (matchEventEntry e)), d, md)
  | none =>
    let d := md.event_query_dict.setItem "event_descriptor_id" event_descriptor_id
    (st.events.filter (fun e => d.entries.all (matchEventEntry e)), d,
     { md with event_query_dict := d })

/-- `find_event_descriptor(header_id, event_query_dict={})`: set
`event_query_dict['header_id']` (same mutable-default behaviour as
`find_event`), then query the EventDescriptor collection. -/
def find_event_descriptor (st : Store) (md : ModuleDefaults) (header_id : PyVal)
    (event_query_dict : Option QDict := none) :
    List EventDescriptor × QDict × ModuleDefaults :=
  match event_query_dict with
  | some d =>
    let d := d.setItem "header_id" header_id
    (st.descriptors.filter (fun e => d.entries.all (matchDescEntry e)), d, md)
  | none =>
    let d := md.descriptor_query_dict.setItem "header_id" header_id
    (st.descriptors.filter (fun e => d.entries.all (matchDescEntry e)), d,
     { md with descriptor_query_dict := d })

/-- `find_beamline_config(header_id, beamline_cfg_query_dict={})`: set
`beamline_cfg_query_dict['header_id']` (same mutable-default behaviour),
then query the BeamlineConfig collection. -/
def find_beamline_config (st : Store) (md : ModuleDefaults) (header_id : PyVal)
    (beamline_cfg_query_dict : Option QDict := none) :
    List BeamlineConfig × QDict × ModuleDefaults :=
  match beamline_cfg_query_dict with
  | some d =>
    let d := d.setItem "header_id" header_id
    (st.configs.filter (fun c => d.entries.all (matchCfgEntry c)), d, md)
  | none =>
    let d := md.beamline_cfg_query_dict.setItem "header_id" header_id
    (st.configs.filter (fun c => d.entries.all (matchCfgEntry c)), d,
     { md with beamline_cfg_query_dict := d })

/-- `get_header_object(id)`: `Header.objects(_id=id)`, the (possibly
empty) list of headers with the given internal id. -/
def get_header_object (st : Store) (id : Nat) : List Header :=
  st.headers.filter (fun h => h._id == id)

/-- `get_header_id(scan_id)`: the `_id` of the first header matching
`scan_id`; a bare `Exception` if the cursor is empty. -/
def get_header_id (st : Store) (scan_id : Int) : Except PyError Nat :=
  match st.headers.find? (fun h => h.scan_id == scan_id) with
  | some h => .ok h._id
  | none => .error (.exception "header_id cannot be retrieved. Please validate scan_id")

/-- `get_event_descriptor_hid_edid(name, s_id)`: resolve the scan id to
the header id, then take the first descriptor with the given
`event_type_name` under that header (`result[0]` raises `IndexError`
when there is none). -/
def get_event_descriptor_hid_edid (st : Store) (name : String) (s_id : Int) :
    Except PyError (Nat × Nat) := do
  let hid ← get_header_id st s_id
  match st.descriptors.find? (fun d =>
      d.event_type_name == some name && d.header_id == hid) with
  | some d => .ok (d.header_id, d._id)
  | none => .error .indexError

/-- `save_header(scan_id, header_owner=getpass.getuser(),
start_time=datetime.datetime.utcnow(), beamline_id=None,
status='In Progress', custom=dict())`: persist a new Header with
`end_time` initialized to `start_time` and return it. The defaults for
`header_owner` and `start_time` were evaluated once at module load
(`env`); `now`, the wall clock at call time, is never consulted.
Omitted optional arguments are `none`. -/
def save_header (env : ModuleEnv) (now : Nat) (st : Store) (scan_id : Int)
    (header_owner : Option String := none) (start_time : Option Nat := none)
    (beamline_id : Option String := none) (status : Option String := none)
    (custom : Option (List (String × String)) := none) : Header × Store :=
  let owner := header_owner.getD env.load_user
  let stime := start_time.getD env.load_time
  let h : Header :=
    { _id := st.next_id, owner := owner, start_time := stime, end_time := stime,
      beamline_id := beamline_id, scan_id := scan_id,
      custom := custom.getD [], status := status.getD "In Progress" }
  (h, { st with headers := st.headers ++ [h], next_id := st.next_id + 1 })

/-- `insert_event_descriptor(scan_id, event_type_id, event_type_name=None,
type_descriptor=dict(), tag=None)`: resolve the scan id to the owning
header, then persist a descriptor (the uniqueness check is commented out
in the source). -/
def insert_event_descriptor (st : Store) (scan_id : Int) (event_type_id : Int)
    (event_type_name : Option String := none)
    (type_descriptor : Option (List (String × String)) := none)
    (tag : Option String := none) :
    Except PyError (EventDescriptor × Store) := do
  let hid ← get_header_id st scan_id
  let d : EventDescriptor :=
    { _id := st.next_id, header_id := hid, event_type_id := event_type_id,
      event_type_name := event_type_name,
      type_descriptor := type_descriptor.getD [], tag := tag }
  .ok (d, { st with descriptors := st.descriptors ++ [d], next_id := st.next_id + 1 })

/-- `insert_event(scan_id, descriptor_name, description=None,
owner=getpass.getuser(), seq_no=None, data=dict())`: resolve
`(descriptor_name, scan_id)` to `(header_id, descriptor_id)`, then
persist the event. The default `owner` was evaluated once at module
load (`env`); `now` is never consulted. -/
def insert_event (env : ModuleEnv) (now : Nat) (st : Store) (scan_id : Int)
    (descriptor_name : String) (description : Option String := none)
    (owner : Option String := none) (seq_no : Option Int := none)
    (data : Option (List (String × String)) := none) :
    Except PyError (Event × Store) := do
  let hd ← get_event_descriptor_hid_edid st descriptor_name scan_id
  let ev : Event :=
    { _id := st.next_id, event_descriptor_id := hd.2, header_id := hd.1,
      description := description, owner := owner.getD env.load_user,
      seq_no := seq_no, data := data.getD [] }
  .ok (ev, { st with events := st.events ++ [ev], next_id := st.next_id + 1 })

/-- `save_beamline_config(beamline_cfg_id, header_id, config_params={})`:
if `get_header_object(header_id)` is truthy (non-empty), persist the
config with the caller-supplied id; otherwise raise
`ValueError('Header with given header_id cannot be located')` and write
nothing. The resulting store is returned alongside the outcome. -/
def save_beamline_config (st : Store) (beamline_cfg_id : Nat) (header_id : Nat)
    (config_params : List (String × String) := []) :
    Except PyError BeamlineConfig × Store :=
  if (get_header_object st header_id).isEmpty then
    (.error (.valueError "Header with given header_id cannot be located"), st)
  else
    let cfg : BeamlineConfig :=
      { _id := beamline_cfg_id, header_id := header_id, config_params := config_params }
    (.ok cfg, { st with configs := st.configs ++ [cfg] })

/-- `coll.update({'_id': header_id}, doc, upsert=False)`: replace the
first document whose `_id` matches with `doc`; no match, no change. -/
def replaceFirstHdr : List Header → Nat → Header → List Header
  | [], _, _ => []
  | r :: rs, hid, doc =>
    if r._id == hid then doc :: rs else r :: replaceFirstHdr rs hid doc

/-- `update_header_end_time(header_id, end_time)`: fetch the full
documents matching `_id`, take the first (`IndexError` when none),
overwrite its `end_time` field, and write the whole document back. -/
def update_header_end_time (st : Store) (header_id : Nat) (end_time : Nat) :
    Except PyError Unit × Store :=
  match st.headers.filter (fun h => h._id == header_id) with
  | [] => (.error .indexError, st)
  | h :: _ =>
    (.ok (),
     { st with headers := replaceFirstHdr st.headers header_id { h with end_time := end_time } })

/-- `update_header_status(header_id, status)`: same read-modify-write as
`update_header_end_time`, overwriting the `status` field. -/
def update_header_status (st : Store) (header_id : Nat) (status : String) :
    Except PyError Unit × Store :=
  match st.headers.filter (fun h => h._id == header_id) with
  | [] => (.error .indexError, st)
  | h :: _ =>
    (.ok (),
     { st with headers := replaceFirstHdr st.headers header_id { h with status := status } })

/-- Python `scan_id is 'current'` (string literals are interned, so the
identity test behaves as string equality on these literals). -/
def isCurrentSentinel : Option PyVal → Bool
  | some (.str s) => s == "current"
  | _ => false

/-- Python `scan_id is 'last'`; see `isCurrentSentinel`. -/
def isLastSentinel : Option PyVal → Bool
  | some (.str s) => s == "last"
  | _ => false

/-- `find(header_id=None, scan_id=None, owner=None, start_time=None,
beamline_id=None, end_time=None, data=False)`, the query engine.
`rm` is the store's case-insensitive regex engine and `now` is
`datetime.datetime.utcnow()` at call time. The three modes:
`scan_id is 'current'` (most-recently-ended header),
`scan_id is 'last'` (index 1 of the 5 most-recently-ended headers),
and the general filter assembled from the non-null criteria. The
descriptor/event attachment (in the source, per-header calls to
`find_event_descriptor` / `find_event` omitting the query dict, whose
module default therefore holds exactly the one id key at each use) is
`attachDescs`. -/
def find (rm : String → String → Bool) (now : Nat) (st : Store)
    (header_id : Option Nat := none) (scan_id : Option PyVal := none)
    (owner : Option String := none) (start_time : Option PyVal := none)
    (beamline_id : Option String := none) (end_time : Option PyVal := none)
    (data : Bool := false) : Except PyError FindResult :=
  if isCurrentSentinel scan_id then
    match (sortEndDesc st.headers).take 1 with
    | [] => .error .indexError
    | h :: _ => .ok (.single (attachDescs st h data))
  else if isLastSentinel scan_id then
    match ((sortEndDesc st.headers).take 5).get? 1 with
    | none => .error .indexError
    | some h => .ok (.single (attachDescs st h data))
  else do
    let q : Query := { _id := header_id }
    let q : Query :=
      match owner with
      | some o => { q with owner := ownerLoop o supported_wildcard none }
      | none => q
    let q : Query := { q with scan_id := scan_id, beamline_id := beamline_id }
    let q : Query ←
      match start_time with
      | none => pure q
      | some v =>
        match v with
        | .list ts => do
          let _ ← validateEach ts
          pure { q with start_time := some (.inL ts) }
        | .dict kvs => do
          let s ← getItem kvs "start"
          let e ← getItem kvs "end"
          let _ ← __validate_time [s, e]
          pure { q with start_time := some (.range s e) }
        | w => do
          let flag ← __validate_time [w]
          if flag then pure { q with start_time := some (.range w (.dt now)) }
          else pure q
    let q : Query ←
      match end_time with
      | none => pure q
      | some v =>
        match v with
        | .list ts => do
          let _ ← validateEach ts
          pure { q with end_time := some (.inL ts) }
        | .dict kvs => do
          let s ← getItem kvs "start"
          let e ← getItem kvs "end"
          pure { q with end_time := some (.range s e) }
        | w => pure { q with end_time := some (.range w (.dt now)) }
    let tbl := __decode_hdr_cursor (find_header rm st q)
    .ok (.table (tbl.map (fun p => (p.1, attachDescs st p.2 data))))

/-! ### Concrete sample data, used by the witness theorems. -/

/-- A completed sample header. -/
def hdrA : Header :=
  { _id := 1, owner := "arkilic", start_time := 10, end_time := 20,
    beamline_id := some "csx", scan_id := 7, custom := [], status := "Complete" }

/-- An in-progress sample header with the latest end time. -/
def hdrB : Header :=
  { _id := 2, owner := "bob", start_time := 15, end_time := 30,
    beamline_id := none, scan_id := 8, custom := [], status := "In Progress" }

/-- A sample header with the second-latest end time. -/
def hdrC : Header :=
  { _id := 3, owner := "ark", start_time := 5, end_time := 25,
    beamline_id := none, scan_id := 9, custom := [], status := "Complete" }

/-- A sample descriptor belonging to `hdrB`. -/
def descA : EventDescriptor :=
  { _id := 11, header_id := 2, event_type_id := 0,
    event_type_name := some "scan", type_descriptor := [], tag := none }

/-- A sample event belonging to `descA`. -/
def evA : Event :=
  { _id := 21, event_descriptor_id := 11, header_id := 2,
    description := none, owner := "bob", seq_no := some 0, data := [] }

/-- A sample store holding `hdrA`, `hdrB`, `hdrC`, `descA`, `evA`. -/
def stW : Store :=
  { headers := [hdrA, hdrB, hdrC], descriptors := [descA], events := [evA],
    configs := [], next_id := 100 }

/-- A sample regex engine (matches everything). -/
def rmW : String → String → Bool := fun _ _ => true

/-- A sample module environment (load-time user and timestamp). -/
def envW : ModuleEnv := { load_user := "testuser", load_time := 1234 }

/-- The event `insert_event envW 0 stW 8 "scan"` persists. -/
def evW : Event :=
  { _id := 100, event_descriptor_id := 11, header_id := 2,
    description := none, owner := "testuser", seq_no := none, data := [] }

/-- The store after `insert_event envW 0 stW 8 "scan"`. -/
def stWev : Store :=
  { stW with events := stW.events ++ [evW], next_id := 101 }

/-- The header `save_header envW 3 stW 12 …` persists. -/
def hdrNew : Header :=
  { _id := 100, owner := "alice", start_time := 42, end_time := 42,
    beamline_id := some "csx", scan_id := 12, custom := [("k", "v")],
    status := "Complete" }

/-- The store after `save_header envW 3 stW 12 …`. -/
def stWh : Store :=
  { stW with headers := stW.headers ++ [hdrNew], next_id := 101 }

/-! ### Supporting lemmas -/

/-- Inserting a fresh key appends the pair. -/
theorem dinsert_of_not_any {α : Type} (m : List (String × α)) (k : String) (v : α)
    (h : m.any (fun p => p.1 == k) = false) : dinsert m k v = m ++ [(k, v)] := by
  simp [dinsert, h]

/-- With pairwise-distinct keys, the `__decode_hdr_cursor` fold is a
plain re-keying `map`, no entry overwritten. -/
theorem decode_foldl_eq (l : List Header) :
    ∀ m : List (String × Header),
      (m.map Prod.fst ++ l.map hdrKey).Nodup →
      l.foldl (fun m h => dinsert m (hdrKey h) h) m
        = m ++ l.map (fun h => (hdrKey h, h)) := by
  induction l with
  | nil => intro m _; simp
  | cons h t ih =>
    intro m hnd
    have hk : hdrKey h ∉ m.map Prod.fst := by
      rcases List.nodup_append.mp hnd with ⟨-, -, hdisj⟩
      exact fun hmem => hdisj hmem (List.mem_cons_self _ _)
    have hany : (m.any (fun p => p.1 == hdrKey h)) = false := by
      apply List.any_eq_false.mpr
      intro p hp hpk
      exact hk ((eq_of_beq hpk) ▸ List.mem_map_of_mem Prod.fst hp)
    rw [List.foldl_cons, dinsert_of_not_any _ _ _ hany,
      ih (m ++ [(hdrKey h, h)]) (by simpa [List.append_assoc] using hnd)]
    simp

/-- `__decode_hdr_cursor` on a nodup-keyed cursor is a re-keying map. -/
theorem decode_hdr_eq_map (l : List Header) (hnd : (l.map hdrKey).Nodup) :
    __decode_hdr_cursor l = l.map (fun h => (hdrKey h, h)) := by
  simpa [__decode_hdr_cursor] using decode_foldl_eq l [] (by simpa using hnd)

/-- The wildcard loop of `find` ends with the regex criterion exactly
when `owner` contains a supported wildcard character, and with the
exact-match criterion otherwise. -/
theorem ownerLoop_supported (o : String) :
    ownerLoop o supported_wildcard none
      = some (if hasWildcard o then .regexIC o else .exact o) := by
  by_cases h1 : o.data.contains (Char.ofNat 42) <;>
    by_cases h2 : o.data.contains (Char.ofNat 46) <;>
    by_cases h3 : o.data.contains (Char.ofNat 63) <;>
    by_cases h4 : o.data.contains (Char.ofNat 47) <;>
    by_cases h5 : o.data.contains (Char.ofNat 94) <;>
    simp_all [ownerLoop, supported_wildcard, hasWildcard]

/-- `sortEndDesc` is a permutation of its input. -/
theorem sortEndDesc_perm (l : List Header) : (sortEndDesc l).Perm l :=
  List.perm_insertionSort endDesc l

/-- `sortEndDesc` sorts descending by `end_time`. -/
theorem sortEndDesc_sorted (l : List Header) :
    List.Sorted endDesc (sortEndDesc l) :=
  List.sorted_insertionSort endDesc l

/-- The bases of the general-mode result table are exactly the headers
matching the assembled query, in store order. -/
theorem table_bases (rm : String → String → Bool) (st : Store) (q : Query)
    (data : Bool) (hkeys : (st.headers.map hdrKey).Nodup) :
    ((__decode_hdr_cursor (find_header rm st q)).map
        (fun p => (p.1, attachDescs st p.2 data))).map (fun p => p.2.base)
      = st.headers.filter (matchQuery rm q) := by
  have hsub : ((st.headers.filter (matchQuery rm q)).map hdrKey).Nodup :=
    (List.Sublist.map hdrKey (List.filter_sublist st.headers)).nodup hkeys
  rw [find_header, decode_hdr_eq_map _ hsub]
  simp only [List.map_map]
  exact List.map_id'' (fun h => rfl) _

/-- The per-element validation loop fails with the `TypeError` of
`__validate_time` as soon as some element is not a datetime. -/
theorem validateEach_err (ts : List PyVal) (h : ts.all PyVal.isDatetime = false) :
    validateEach ts = .error (.typeError "Date must be datetime object") := by
  induction ts with
  | nil => simp at h
  | cons t ts ih =>
    by_cases ht : t.isDatetime
    · have hts : ts.all PyVal.isDatetime = false := by simpa [ht] using h
      have h1 : __validate_time [t] = .ok true := by simp [__validate_time, ht]
      show Except.bind (__validate_time [t]) (fun _ => validateEach ts)
          = .error (.typeError "Date must be datetime object")
      rw [h1]
      exact ih hts
    · have h1 : __validate_time [t] = .error (.typeError "Date must be datetime object") := by
        simp [__validate_time, show t.isDatetime = false from Bool.eq_false_iff.mpr ht]
      show Except.bind (__validate_time [t]) (fun _ => validateEach ts)
          = .error (.typeError "Date must be datetime object")
      rw [h1]
      rfl

/-- After `d[k] = v`, the dict contains the key `k`. -/
theorem hasKey_setItem (d : QDict) (k : String) (v : PyVal) :
    (d.setItem k v).hasKey k = true := by
  unfold QDict.setItem QDict.hasKey dinsert
  by_cases h : d.entries.any (fun p => p.1 == k)
  · simp only [h, if_true]
    obtain ⟨p, hp, hpk⟩ := List.any_eq_true.mp h
    exact List.any_eq_true.mpr ⟨(k, v), List.mem_map.mpr ⟨p, hp, by simp [hpk]⟩, by simp⟩
  · simp [h]

/-- With pairwise-distinct `_id`s, the cursor `find({'_id': hid})`
contains exactly the one matching header. -/
theorem filter_id_single (hid : Nat) (h : Header) :
    ∀ l : List Header, (l.map Header._id).Nodup → h ∈ l → h._id = hid →
      l.filter (fun r => r._id == hid) = [h] := by
  intro l
  induction l with
  | nil => intro _ hm _; cases hm
  | cons r rs ih =>
    intro hnd hm hh
    have hnotin : ∀ x ∈ rs, x._id ≠ r._id := by
      intro x hx heq
      exact (List.nodup_cons.mp hnd).1 (heq ▸ List.mem_map_of_mem Header._id hx)
    rcases List.mem_cons.mp hm with rfl | hm'
    · have hrest : rs.filter (fun x => x._id == hid) = [] := by
        apply List.filter_eq_nil_iff.mpr
        intro x hx
        simpa [hh] using hnotin x hx
      simp [List.filter_cons, hh, hrest]
    · have hr : r._id ≠ hid := fun heq =>
        hnotin h hm' (hh.trans heq.symm)
      have := ih (List.nodup_cons.mp hnd).2 hm' hh
      simp [List.filter_cons, hr, this]

/-- Rewriting entries matched on an `_id` no list member carries is the
identity. -/
theorem map_if_id (hid : Nat) (f : Header → Header) :
    ∀ rs : List Header, (∀ x ∈ rs, x._id ≠ hid) →
      rs.map (fun r => if r._id = hid then f r else r) = rs := by
  intro rs
  induction rs with
  | nil => intro _; rfl
  | cons r rs ih =>
    intro hno
    have hr : r._id ≠ hid := hno r (List.mem_cons_self _ _)
    simp only [List.map_cons, if_neg hr,
      ih (fun x hx => hno x (List.mem_cons_of_mem _ hx))]

/-- With pairwise-distinct `_id`s, replacing the first `_id` match by
the modified copy of the matching header rewrites exactly that one
entry and leaves every other header unchanged. -/
theorem replaceFirst_eq_map (hid : Nat) (f : Header → Header) (h : Header) :
    ∀ l : List Header, (l.map Header._id).Nodup → h ∈ l → h._id = hid →
      replaceFirstHdr l hid (f h)
        = l.map (fun r => if r._id = hid then f r else r) := by
  intro l
  induction l with
  | nil => intro _ hm _; cases hm
  | cons r rs ih =>
    intro hnd hm hh
    have hnotin : ∀ x ∈ rs, x._id ≠ r._id := by
      intro x hx heq
      exact (List.nodup_cons.mp hnd).1 (heq ▸ List.mem_map_of_mem Header._id hx)
    rcases List.mem_cons.mp hm with rfl | hm'
    · have hrest : rs.map (fun r => if r._id = hid then f r else r) = rs :=
        map_if_id hid f rs (fun x hx => by simpa [hh] using hnotin x hx)
      simp [replaceFirstHdr, hh, hrest]
    · have hr : r._id ≠ hid := fun heq => hnotin h hm' (hh.trans heq.symm)
      have hbeq : (r._id == hid) = false := beq_eq_false_iff_ne.mpr hr
      simp only [replaceFirstHdr, hbeq, Bool.false_eq_true, if_neg, if_false,
        List.map_cons, if_neg hr, ih (List.nodup_cons.mp hnd).2 hm' hh]

/-! ### Claim theorems -/

/-- **C2**: in general-filter mode with a non-null `owner` criterion `w`,
the assembled filter matches `owner` as a case-insensitive regular
expression compiled from `w` when `w` contains one of `* . ? / ^`, and
requires exact equality otherwise: the result table's headers are
exactly those whose owner satisfies the corresponding predicate.
`"arkilic"` contains no wildcard (exact match), `"ark*"` does (regex).
The hypothesis says the store's result keys (derived from the unique
mongo `_id`s) are pairwise distinct. -/
theorem find_owner_wildcard_spec (rm : String → String → Bool) (now : Nat)
    (st : Store) (data : Bool) (w : String)
    (hkeys : (st.headers.map hdrKey).Nodup) :
    (∃ tbl, find rm now st none none (some w) none none none data
        = .ok (.table tbl) ∧
      tbl.map (fun p => p.2.base)
        = st.headers.filter (fun h =>
            if hasWildcard w then rm w h.owner else h.owner == w)) ∧
    hasWildcard "arkilic" = false ∧ hasWildcard "ark*" = true := by
  have hfind : find rm now st none none (some w) none none none data
      = .ok (.table ((__decode_hdr_cursor (find_header rm st
          { owner := ownerLoop w supported_wildcard none })).map
          (fun p => (p.1, attachDescs st p.2 data)))) := rfl
  refine ⟨⟨_, hfind, ?_⟩, by decide, by decide⟩
  rw [table_bases rm st _ data hkeys]
  refine List.filter_congr (fun h hmem => ?_)
  rw [show (ownerLoop w supported_wildcard none : Option OwnerCrit)
      = some (if hasWildcard w then .regexIC w else .exact w) from
    ownerLoop_supported w]
  by_cases hw : hasWildcard w <;> simp [matchQuery, matchOwner, hw]

/-- Witness for **C2** at a concrete store: `find(owner="arkilic")`
(no wildcard) returns only the exactly-matching header. -/
theorem find_owner_wildcard_spec_witness :
    (stW.headers.map hdrKey).Nodup ∧
    ((∃ tbl, find rmW 50 stW none none (some "arkilic") none none none false
        = .ok (.table tbl) ∧
      tbl.map (fun p => p.2.base)
        = stW.headers.filter (fun h =>
            if hasWildcard "arkilic" then rmW "arkilic" h.owner
            else h.owner == "arkilic")) ∧
    hasWildcard "arkilic" = false ∧ hasWildcard "ark*" = true) :=
  ⟨by decide, find_owner_wildcard_spec rmW 50 stW false "arkilic" (by decide)⟩

/-- **C3**: `find(start_time={'start': T1, 'end': T2})` with valid
timestamps returns exactly the headers with `T1 <= start_time < T2`
(upper bound excluded), and symmetrically
`find(end_time={'start': T1, 'end': T2})` filters on `end_time` with
the same half-open semantics. -/
theorem find_time_range_halfopen (rm : String → String → Bool) (now : Nat)
    (st : Store) (data : Bool) (t1 t2 : Nat)
    (hkeys : (st.headers.map hdrKey).Nodup) :
    (∃ tbl, find rm now st none none none
          (some (.dict [("start", .dt t1), ("end", .dt t2)])) none none data
        = .ok (.table tbl) ∧
      tbl.map (fun p => p.2.base)
        = st.headers.filter (fun h =>
            decide (t1 ≤ h.start_time) && decide (h.start_time < t2))) ∧
    (∃ tbl, find rm now st none none none none none
          (some (.dict [("start", .dt t1), ("end", .dt t2)])) data
        = .ok (.table tbl) ∧
      tbl.map (fun p => p.2.base)
        = st.headers.filter (fun h =>
            decide (t1 ≤ h.end_time) && decide (h.end_time < t2))) := by
  constructor
  · have hfind : find rm now st none none none
          (some (.dict [("start", .dt t1), ("end", .dt t2)])) none none data
        = .ok (.table ((__decode_hdr_cursor (find_header rm st
            { start_time := some (.range (.dt t1) (.dt t2)) })).map
            (fun p => (p.1, attachDescs st p.2 data)))) := rfl
    refine ⟨_, hfind, ?_⟩
    rw [table_bases rm st _ data hkeys]
    refine List.filter_congr (fun h hmem => ?_)
    simp [matchQuery, matchTime, PyVal.dtLE, PyVal.dtLT]
  · have hfind : find rm now st none none none none none
          (some (.dict [("start", .dt t1), ("end", .dt t2)])) data
        = .ok (.table ((__decode_hdr_cursor (find_header rm st
            { end_time := some (.range (.dt t1) (.dt t2)) })).map
            (fun p => (p.1, attachDescs st p.2 data)))) := rfl
    refine ⟨_, hfind, ?_⟩
    rw [table_bases rm st _ data hkeys]
    refine List.filter_congr (fun h hmem => ?_)
    simp [matchQuery, matchTime, PyVal.dtLE, PyVal.dtLT]

/-- Witness for **C3** at a concrete store: the range `[10, 15)` on
`start_time` keeps exactly the header starting at 10 and excludes the
header starting at the bound 15. -/
theorem find_time_range_halfopen_witness :
    (stW.headers.map hdrKey).Nodup ∧
    ((∃ tbl, find rmW 50 stW none none none
          (some (.dict [("start", .dt 10), ("end", .dt 15)])) none none false
        = .ok (.table tbl) ∧
      tbl.map (fun p => p.2.base)
        = stW.headers.filter (fun h =>
            decide (10 ≤ h.start_time) && decide (h.start_time < 15))) ∧
    (∃ tbl, find rmW 50 stW none none none none none
          (some (.dict [("start", .dt 10), ("end", .dt 15)])) false
        = .ok (.table tbl) ∧
      tbl.map (fun p => p.2.base)
        = stW.headers.filter (fun h =>
            decide (10 ≤ h.end_time) && decide (h.end_time < 15)))) :=
  ⟨by decide, find_time_range_halfopen rmW 50 stW false 10 15 (by decide)⟩

/-- **C4**: on a non-empty store, `find(scan_id="current")` returns the
single header with the maximum `end_time` (the head of the
end-time-descending sort), with each of its descriptors attached under
the positional keys `event_descriptor_0, event_descriptor_1, …`, and —
when `data` is true — each descriptor carrying its events keyed
`event_0, event_1, …` in store-return order. -/
theorem find_current_spec (rm : String → String → Bool) (now : Nat) (st : Store)
    (data : Bool) (hne : st.headers ≠ []) :
    ∃ h, h ∈ st.headers ∧ (∀ g ∈ st.headers, g.end_time ≤ h.end_time) ∧
      find rm now st none (some (.str "current")) none none none none data
        = .ok (.single
            { base := h
              descs := (st.descriptors.filter
                  (fun d => d.header_id == h._id)).enum.map (fun p =>
                ("event_descriptor_" ++ toString p.1,
                 { desc := p.2
                   events :=
                     if data then
                       some (__decode_cursor (st.events.filter
                         (fun e => e.event_descriptor_id == p.2._id)))
                     else none })) }) := by
  have hfind : find rm now st none (some (.str "current")) none none none none data
      = match (sortEndDesc st.headers).take 1 with
        | [] => .error .indexError
        | h :: _ => .ok (.single (attachDescs st h data)) := rfl
  cases hs : sortEndDesc st.headers with
  | nil =>
    exact absurd ((hs ▸ sortEndDesc_perm st.headers).symm.eq_nil) hne
  | cons h t =>
    refine ⟨h, ?_, ?_, ?_⟩
    · exact (sortEndDesc_perm st.headers).subset (hs ▸ List.mem_cons_self h t)
    · intro g hg
      have hg' : g ∈ h :: t := hs ▸ (sortEndDesc_perm st.headers).mem_iff.mpr hg
      rcases List.mem_cons.mp hg' with rfl | hgt
      · exact Nat.le_refl _
      · have hsorted := sortEndDesc_sorted st.headers
        rw [hs] at hsorted
        exact (List.sorted_cons.mp hsorted).1 g hgt
    · rw [hfind, hs]
      rfl

/-- Witness for **C4** at a concrete store with `data=true`: the header
ending at 30 is returned with its descriptor and event attached. -/
theorem find_current_spec_witness :
    stW.headers ≠ [] ∧
    ∃ h, h ∈ stW.headers ∧ (∀ g ∈ stW.headers, g.end_time ≤ h.end_time) ∧
      find rmW 50 stW none (some (.str "current")) none none none none true
        = .ok (.single
            { base := h
              descs := (stW.descriptors.filter
                  (fun d => d.header_id == h._id)).enum.map (fun p =>
                ("event_descriptor_" ++ toString p.1,
                 { desc := p.2
                   events :=
                     if true then
                       some (__decode_cursor (stW.events.filter
                         (fun e => e.event_descriptor_id == p.2._id)))
                     else none })) }) :=
  ⟨by decide, find_current_spec rmW 50 stW true (by decide)⟩

/-- **C5**: `find(scan_id="last")` fetches the 5 most-recently-ended
headers sorted descending by `end_time` and returns the entry at
index 1 — the 2nd-most-recent-by-end_time header, attached like the
`"current"` mode — and fails with an `IndexError` when the store holds
fewer than two headers. -/
theorem find_last_spec (rm : String → String → Bool) (now : Nat) (st : Store)
    (data : Bool) :
    (st.headers.length < 2 →
      find rm now st none (some (.str "last")) none none none none data
        = .error .indexError) ∧
    (2 ≤ st.headers.length →
      ∃ h0 h1 rest, sortEndDesc st.headers = h0 :: h1 :: rest ∧
        st.headers.Perm (h0 :: h1 :: rest) ∧
        h1.end_time ≤ h0.end_time ∧
        (∀ g ∈ rest, g.end_time ≤ h1.end_time) ∧
        find rm now st none (some (.str "last")) none none none none data
          = .ok (.single (attachDescs st h1 data))) := by
  have hfind : find rm now st none (some (.str "last")) none none none none data
      = match ((sortEndDesc st.headers).take 5).get? 1 with
        | none => .error .indexError
        | some h => .ok (.single (attachDescs st h data)) := rfl
  have hlen : (sortEndDesc st.headers).length = st.headers.length :=
    (sortEndDesc_perm st.headers).length_eq
  constructor
  · intro hlt
    rw [hfind]
    cases hs : sortEndDesc st.headers with
    | nil => rfl
    | cons a t =>
      cases ht : t with
      | nil => rw [hs] at *; rfl
      | cons b t2 =>
        rw [hs, ht] at hlen
        simp at hlen
        omega
  · intro hge
    cases hs : sortEndDesc st.headers with
    | nil =>
      rw [hs] at hlen
      simp at hlen
      omega
    | cons h0 t =>
      cases ht : t with
      | nil =>
        rw [hs, ht] at hlen
        simp at hlen
        omega
      | cons h1 rest =>
        subst ht
        have hsorted := sortEndDesc_sorted st.headers
        rw [hs] at hsorted
        have hperm : st.headers.Perm (h0 :: h1 :: rest) := by
          have hp := sortEndDesc_perm st.headers
          rw [hs] at hp
          exact hp.symm
        have hfind2 : find rm now st none (some (.str "last")) none none none none data
            = .ok (.single (attachDescs st h1 data)) := by
          rw [hfind, hs]
          rfl
        exact ⟨h0, h1, rest, rfl, hperm,
          (List.sorted_cons.mp hsorted).1 h1 (List.mem_cons_self _ _),
          fun g hg => (List.sorted_cons.mp (List.sorted_cons.mp hsorted).2).1 g hg,
          hfind2⟩

/-- Witness for **C5** at a concrete three-header store: the header
ending at 25 (second in the descending order 30, 25, 20) is returned. -/
theorem find_last_spec_witness :
    2 ≤ stW.headers.length ∧
    ∃ h0 h1 rest, sortEndDesc stW.headers = h0 :: h1 :: rest ∧
      stW.headers.Perm (h0 :: h1 :: rest) ∧
      h1.end_time ≤ h0.end_time ∧
      (∀ g ∈ rest, g.end_time ≤ h1.end_time) ∧
      find rmW 50 stW none (some (.str "last")) none none none none false
        = .ok (.single (attachDescs stW h1 false)) :=
  ⟨by decide, (find_last_spec rmW 50 stW false).2 (by decide)⟩

/-- **C6**: `save_beamline_config` with a `header_id` no header carries
fails with the `ValueError` naming the missing header and performs no
write: the whole store — all four collections — is returned unchanged. -/
theorem save_beamline_config_missing_header (st : Store) (cfg_id hid : Nat)
    (params : List (String × String))
    (hno : ∀ h ∈ st.headers, h._id ≠ hid) :
    save_beamline_config st cfg_id hid params
      = (.error (.valueError "Header with given header_id cannot be located"), st) := by
  have hempty : get_header_object st hid = [] := by
    apply List.filter_eq_nil_iff.mpr
    intro h hh
    simpa using hno h hh
  simp [save_beamline_config, hempty]

/-- Witness for **C6**: id 77 is carried by no header of the sample
store; the call errors and the store is unchanged. -/
theorem save_beamline_config_missing_header_witness :
    (∀ h ∈ stW.headers, h._id ≠ 77) ∧
    save_beamline_config stW 5 77 []
      = (.error (.valueError "Header with given header_id cannot be located"), stW) :=
  ⟨by decide, save_beamline_config_missing_header stW 5 77 [] (by decide)⟩

/-- When the `_id` filter singles out one header, `find(header_id=i)`
returns the one-entry table holding it. -/
theorem find_header_id_unique (rm : String → String → Bool) (now : Nat)
    (s : Store) (i : Nat) (data : Bool) (h : Header)
    (hfilter : s.headers.filter (fun g => g._id == i) = [h]) :
    find rm now s (some i) none none none none none data
      = .ok (.table [(hdrKey h, attachDescs s h data)]) := by
  have hfind : find rm now s (some i) none none none none none data
      = .ok (.table ((__decode_hdr_cursor (find_header rm s { _id := some i })).map
          (fun p => (p.1, attachDescs s p.2 data)))) := rfl
  rw [hfind]
  have hfh : find_header rm s { _id := some i } = [h] := by
    rw [find_header, ← hfilter]
    exact List.filter_congr (fun g _ => by simp [matchQuery])
  rw [hfh]
  rfl

/-- **C7**: a header saved by `save_header` and retrieved through
`find(header_id=<its id>)` comes back as the sole result, with every
field set at creation intact and `end_time` initialized equal to
`start_time`. The freshness hypothesis says the store-assigned id is
new (the store's id generator never reuses an id). -/
theorem save_header_find_roundtrip (env : ModuleEnv) (nowS nowF : Nat)
    (rm : String → String → Bool) (st : Store) (scan_id : Int) (owner : String)
    (stt : Nat) (bl : Option String) (status : String)
    (custom : List (String × String)) (data : Bool) (h : Header) (st2 : Store)
    (hfresh : ∀ g ∈ st.headers, g._id ≠ st.next_id)
    (hsave : save_header env nowS st scan_id (some owner) (some stt) bl
        (some status) (some custom) = (h, st2)) :
    ∃ tbl, find rm nowF st2 (some h._id) none none none none none data
        = .ok (.table tbl) ∧
      tbl.map (fun p => p.2.base) = [h] ∧
      h.owner = owner ∧ h.scan_id = scan_id ∧ h.start_time = stt ∧
      h.end_time = stt ∧ h.beamline_id = bl ∧ h.status = status ∧
      h.custom = custom := by
  have hh : h = { _id := st.next_id, owner := owner, start_time := stt,
                  end_time := stt, beamline_id := bl, scan_id := scan_id,
                  custom := custom, status := status } :=
    (congrArg Prod.fst hsave).symm
  have hst2 : st2 = { st with headers := st.headers ++ [h], next_id := st.next_id + 1 } := by
    rw [hh]
    exact (congrArg Prod.snd hsave).symm
  subst hst2
  have hid : h._id = st.next_id := by rw [hh]
  have hfilter : (st.headers ++ [h]).filter (fun g => g._id == h._id) = [h] := by
    rw [List.filter_append, List.filter_eq_nil_iff.mpr (fun g hg => by
      simp only [hid, beq_eq_false_iff_ne, ne_eq, Bool.not_eq_true]
      exact fun heq => hfresh g hg heq)]
    simp [List.filter_cons]
  refine ⟨_, find_header_id_unique rm nowF _ h._id data h hfilter,
    rfl, ?_, ?_, ?_, ?_, ?_, ?_, ?_⟩ <;> rw [hh]

/-- Witness for **C7** at a concrete store: the saved header with id
100 round-trips through `find(header_id=100)` with all its creation
fields intact. -/
theorem save_header_find_roundtrip_witness :
    ((∀ g ∈ stW.headers, g._id ≠ stW.next_id) ∧
     save_header envW 3 stW 12 (some "alice") (some 42) (some "csx")
       (some "Complete") (some [("k", "v")]) = (hdrNew, stWh)) ∧
    ∃ tbl, find rmW 7 stWh (some hdrNew._id) none none none none none false
        = .ok (.table tbl) ∧
      tbl.map (fun p => p.2.base) = [hdrNew] ∧
      hdrNew.owner = "alice" ∧ hdrNew.scan_id = 12 ∧ hdrNew.start_time = 42 ∧
      hdrNew.end_time = 42 ∧ hdrNew.beamline_id = some "csx" ∧
      hdrNew.status = "Complete" ∧ hdrNew.custom = [("k", "v")] :=
  ⟨⟨by decide, rfl⟩,
   save_header_find_roundtrip envW 3 7 rmW stW 12 "alice" 42 (some "csx")
     "Complete" [("k", "v")] false hdrNew stWh (by decide) rfl⟩

/-- **C8**: both header mutations are read-modify-write
(`update_header_end_time` / `update_header_status` fetch the matching
document, overwrite the one field and write the whole document back):
on a store with unique ids containing the target header, the resulting
header list rewrites exactly the target — changing only `end_time`
resp. `status` — and leaves every other header, and every other
collection, unchanged. -/
theorem update_header_frame (st : Store) (hid t : Nat) (s : String) (h : Header)
    (hnd : (st.headers.map Header._id).Nodup)
    (hmem : h ∈ st.headers) (hh : h._id = hid) :
    update_header_end_time st hid t
      = (.ok (), { st with headers := st.headers.map
                             (fun r => if r._id = hid then { r with end_time := t } else r) }) ∧
    update_header_status st hid s
      = (.ok (), { st with headers := st.headers.map
                             (fun r => if r._id = hid then { r with status := s } else r) }) := by
  have hfilter := filter_id_single hid h st.headers hnd hmem hh
  constructor
  · simp only [update_header_end_time, hfilter]
    rw [replaceFirst_eq_map hid (fun r => { r with end_time := t }) h st.headers hnd hmem hh]
  · simp only [update_header_status, hfilter]
    rw [replaceFirst_eq_map hid (fun r => { r with status := s }) h st.headers hnd hmem hh]

/-- Witness for **C8** at the concrete store: updating header 2 changes
only its `end_time` (resp. `status`), leaving headers 1 and 3 as they
were. -/
theorem update_header_frame_witness :
    ((stW.headers.map Header._id).Nodup ∧ hdrB ∈ stW.headers ∧ hdrB._id = 2) ∧
    update_header_end_time stW 2 99
      = (.ok (), { stW with headers := stW.headers.map
                              (fun r => if r._id = 2 then { r with end_time := 99 } else r) }) ∧
    update_header_status stW 2 "Complete"
      = (.ok (), { stW with headers := stW.headers.map
                              (fun r => if r._id = 2 then { r with status := "Complete" } else r) }) :=
  ⟨⟨by decide, by decide, rfl⟩,
   update_header_frame stW 2 99 "Complete" hdrB (by decide) (by decide) rfl⟩

/-- **C1** counterexample: the claim requires every malformed time
criterion — symmetrically for `start_time` and `end_time` in all three
shapes — to fail with a `TypeError` before any store query runs; but
`find(end_time="oops")` (a scalar that is no timestamp) succeeds,
executing the query assembled from the malformed value and returning a
table. -/
theorem find_end_time_unvalidated_cex :
    find rmW 5 stW none none none none none (some (.str "oops")) false
      = .ok (.table []) := rfl

/-- **C1** amended: validation is asymmetric. A `start_time` criterion
is validated in all three shapes (scalar, list element, mapping entry)
and fails with the `TypeError` naming the expected timestamp; an
`end_time` criterion is validated only in the list shape — an
`end_time` mapping or scalar is passed to the store query unvalidated
and the call succeeds. -/
theorem find_time_validation_asymmetric (rm : String → String → Bool)
    (now : Nat) (st : Store) (data : Bool) (s : String) (n : Int)
    (ts : List PyVal) (kvs : List (String × PyVal)) (a b : PyVal) :
    (find rm now st none none none (some (.str s)) none none data
       = .error (.typeError "Date must be datetime object")) ∧
    (find rm now st none none none (some (.int n)) none none data
       = .error (.typeError "Date must be datetime object")) ∧
    (ts.all PyVal.isDatetime = false →
       find rm now st none none none (some (.list ts)) none none data
         = .error (.typeError "Date must be datetime object")) ∧
    (getItem kvs "start" = .ok a → getItem kvs "end" = .ok b →
       (a.isDatetime && b.isDatetime) = false →
       find rm now st none none none (some (.dict kvs)) none none data
         = .error (.typeError "Date must be datetime object")) ∧
    (ts.all PyVal.isDatetime = false →
       find rm now st none none none none none (some (.list ts)) data
         = .error (.typeError "Date must be datetime object")) ∧
    (getItem kvs "start" = .ok a → getItem kvs "end" = .ok b →
       find rm now st none none none none none (some (.dict kvs)) data
         = .ok (.table ((__decode_hdr_cursor (find_header rm st
             { end_time := some (.range a b) })).map
             (fun p => (p.1, attachDescs st p.2 data))))) ∧
    (find rm now st none none none none none (some (.str s)) data
       = .ok (.table ((__decode_hdr_cursor (find_header rm st
           { end_time := some (.range (.str s) (.dt now)) })).map
           (fun p => (p.1, attachDescs st p.2 data))))) := by
  refine ⟨rfl, rfl, ?_, ?_, ?_, ?_, rfl⟩
  · intro hts
    have h1 := validateEach_err ts hts
    simp only [find]
    rw [h1]
    rfl
  · intro ha hb hab
    have hv : __validate_time [a, b]
        = .error (.typeError "Date must be datetime object") := by
      simp [__validate_time, hab]
    simp only [find]
    rw [ha, hb]
    show Except.bind (__validate_time [a, b]) _ = _
    rw [hv]
    rfl
  · intro hts
    have h1 := validateEach_err ts hts
    simp only [find]
    rw [h1]
    rfl
  · intro ha hb
    simp only [find]
    rw [ha, hb]
    rfl

/-- Witness for the amended **C1** at concrete inputs: the non-datetime
value `"x"` raises the `TypeError` in every validated position and is
let through in the unvalidated `end_time` mapping position. -/
theorem find_time_validation_asymmetric_witness :
    (([PyVal.str "x"].all PyVal.isDatetime = false) ∧
     getItem [("start", PyVal.str "x"), ("end", PyVal.dt 0)] "start"
        = .ok (.str "x") ∧
     getItem [("start", PyVal.str "x"), ("end", PyVal.dt 0)] "end"
        = .ok (.dt 0)) ∧
    (find rmW 5 stW none none none (some (.str "x")) none none false
       = .error (.typeError "Date must be datetime object")) ∧
    (find rmW 5 stW none none none (some (.list [.str "x"])) none none false
       = .error (.typeError "Date must be datetime object")) ∧
    (find rmW 5 stW none none none
        (some (.dict [("start", .str "x"), ("end", .dt 0)])) none none false
       = .error (.typeError "Date must be datetime object")) ∧
    (find rmW 5 stW none none none none none (some (.list [.str "x"])) false
       = .error (.typeError "Date must be datetime object")) ∧
    (find rmW 5 stW none none none none none
        (some (.dict [("start", .str "x"), ("end", .dt 0)])) false
       = .ok (.table ((__decode_hdr_cursor (find_header rmW stW
           { end_time := some (.range (.str "x") (.dt 0)) })).map
           (fun p => (p.1, attachDescs stW p.2 false))))) := by
  have H := find_time_validation_asymmetric rmW 5 stW false "x" 0 [.str "x"]
    [("start", .str "x"), ("end", .dt 0)] (.str "x") (.dt 0)
  exact ⟨⟨rfl, rfl, rfl⟩, H.1, H.2.2.1 rfl, H.2.2.2.1 rfl rfl rfl,
    H.2.2.2.2.1 rfl, H.2.2.2.2.2.1 rfl rfl⟩

/-- **C9**: `find_event`, `find_event_descriptor` and
`find_beamline_config` mutate their query-dict argument in place — the
dict, as the caller sees it after the call, contains the inserted
`event_descriptor_id` / `header_id` key — and when the argument is
omitted each function uses its single module-level default dict, whose
mutation persists into the next omitted-argument call of the same
function. -/
theorem query_helpers_mutate_shared_dict (st : Store) (md : ModuleDefaults)
    (id1 id2 : PyVal) (d1 d2 d3 : QDict) :
    ((find_event st md id1 (some d1)).2.1.hasKey "event_descriptor_id" = true) ∧
    ((find_event_descriptor st md id1 (some d2)).2.1.hasKey "header_id" = true) ∧
    ((find_beamline_config st md id1 (some d3)).2.1.hasKey "header_id" = true) ∧
    ((find_event st md id1 none).2.2.event_query_dict
        = md.event_query_dict.setItem "event_descriptor_id" id1) ∧
    ((find_event st md id1 none).2.1
        = (find_event st md id1 none).2.2.event_query_dict) ∧
    ((find_event st ((find_event st md id1 none).2.2) id2 none).2.1
        = (md.event_query_dict.setItem "event_descriptor_id" id1).setItem
            "event_descriptor_id" id2) ∧
    ((find_event_descriptor st md id1 none).2.2.descriptor_query_dict
        = md.descriptor_query_dict.setItem "header_id" id1) ∧
    ((find_beamline_config st md id1 none).2.2.beamline_cfg_query_dict
        = md.beamline_cfg_query_dict.setItem "header_id" id1) :=
  ⟨hasKey_setItem d1 _ id1, hasKey_setItem d2 _ id1, hasKey_setItem d3 _ id1,
   rfl, rfl, rfl, rfl, rfl⟩

/-- **C10**: the default `start_time` of `save_header` and the default
`owner` of `save_header` / `insert_event` were evaluated once when the
module was loaded: every call omitting them records the module-load
timestamp (as both `start_time` and `end_time`) resp. the load-time
process user, regardless of the wall clock at call time and of the
store state. -/
theorem defaults_captured_at_load (env : ModuleEnv) (now1 now2 : Nat)
    (st1 st2 : Store) (sid1 sid2 : Int) (bl : Option String)
    (stat : Option String) (cust : Option (List (String × String))) :
    ((save_header env now1 st1 sid1 none none bl stat cust).1.start_time
        = env.load_time ∧
     (save_header env now1 st1 sid1 none none bl stat cust).1.end_time
        = env.load_time ∧
     (save_header env now2 st2 sid2 none none bl stat cust).1.start_time
        = env.load_time ∧
     (save_header env now1 st1 sid1 none none bl stat cust).1.owner
        = env.load_user) ∧
    (∀ (scan_id : Int) (dname : String) (desc : Option String)
       (seq : Option Int) (dat : Option (List (String × String)))
       (ev : Event) (st3 : Store),
       insert_event env now1 st1 scan_id dname desc none seq dat
           = .ok (ev, st3) →
       ev.owner = env.load_user) := by
  refine ⟨⟨rfl, rfl, rfl, rfl⟩, ?_⟩
  intro scan_id dname desc seq dat ev st3 hok
  have key : insert_event env now1 st1 scan_id dname desc none seq dat
      = Except.bind (get_event_descriptor_hid_edid st1 dname scan_id)
          (fun hd => .ok
            ({ _id := st1.next_id, event_descriptor_id := hd.2,
               header_id := hd.1, description := desc,
               owner := env.load_user, seq_no := seq, data := dat.getD [] },
             { st1 with
                 events := st1.events ++
                   [{ _id := st1.next_id,
                      event_descriptor_id := hd.2, header_id := hd.1,
                      description := desc, owner := env.load_user,
                      seq_no := seq, data := dat.getD [] }],
                 next_id := st1.next_id + 1 })) := rfl
  rw [key] at hok
  cases hres : get_event_descriptor_hid_edid st1 dname scan_id with
  | error e =>
    rw [hres] at hok
    simp [Except.bind] at hok
  | ok hd =>
    rw [hres] at hok
    simp only [Except.bind] at hok
    injection hok with h1
    injection h1 with hev hst
    rw [← hev]

/-- Witness for **C10**: at the concrete store, an `insert_event` call
omitting `owner` persists the load-time user, and `save_header`
omitting `start_time` records the load-time timestamp. -/
theorem defaults_captured_at_load_witness :
    (insert_event envW 0 stW 8 "scan" none none none none
        = .ok (evW, stWev)) ∧
    evW.owner = envW.load_user ∧
    (save_header envW 0 stW 1 none none none none none).1.start_time
        = envW.load_time := by
  have H := defaults_captured_at_load envW 0 1 stW stW 1 2 none none none
  exact ⟨rfl, H.2 8 "scan" none none none evW stWev rfl, H.1.1⟩

end MetadataStore
